import Mathlib

/-!
Verification of the zsvm-rs installer core against its documentation.

The development shallowly embeds the version-manager core of the
repository: semantic versions and their ordering (the `semver` crate's
`Ord`/`Display` as used by the code), the platform table and
`artifact_url` from `crates/svm-rs/src/releases.rs`, the `Releases`
catalog with its hex-encoded checksum (de)serialization, SHA-256 and
`ensure_checksum`, and the download/verify/lock/write pipeline of
`install` from `crates/zksvm-rs/src/install.rs` as a function from an
explicit environment to a result together with a trace of filesystem
and network events.

Strings are modelled as lists of characters, bytes as naturals below
256, and machine words as naturals reduced modulo `2 ^ 32` where the
code relies on wrapping.
-/

set_option linter.unusedVariables false

/-- Strings are modelled as lists of characters. -/
abbrev Str := List Char

/-- A semver pre-release or build identifier: numeric or alphanumeric
(the `semver` crate classifies an identifier as numeric when it is all
ASCII digits). -/
inductive Ident where
  | num (n : Nat)
  | alpha (s : Str)
deriving DecidableEq, Repr

/-- A semantic version, as in `semver::Version`: `major.minor.patch`
with optional pre-release and build-metadata identifier lists. -/
structure Version where
  major : Nat
  minor : Nat
  patch : Nat
  pre : List Ident
  build : List Ident
deriving DecidableEq, Repr

/-- Lexicographic character-list comparison (ASCII string ordering). -/
def charsCompare : Str → Str → Ordering
  | [], [] => .eq
  | [], _ :: _ => .lt
  | _ :: _, [] => .gt
  | a :: as, b :: bs => (compare a.toNat b.toNat).then (charsCompare as bs)

/-- Identifier comparison, as in `semver`: numeric identifiers sort below
alphanumeric ones, numeric ones compare numerically, alphanumeric ones
lexically. -/
def identCompare : Ident → Ident → Ordering
  | .num a, .num b => compare a b
  | .num _, .alpha _ => .lt
  | .alpha _, .num _ => .gt
  | .alpha a, .alpha b => charsCompare a b

/-- Plain lexicographic comparison of identifier lists (a strict prefix
sorts first). -/
def identsCompare : List Ident → List Ident → Ordering
  | [], [] => .eq
  | [], _ :: _ => .lt
  | _ :: _, [] => .gt
  | a :: as, b :: bs => (identCompare a b).then (identsCompare as bs)

/-- `semver::Prerelease` ordering: an empty pre-release sorts above any
nonempty one; nonempty ones compare identifier by identifier. -/
def preCompare (a b : List Ident) : Ordering :=
  match a, b with
  | [], [] => .eq
  | [], _ :: _ => .gt
  | _ :: _, [] => .lt
  | _ :: _, _ :: _ => identsCompare a b

/-- `semver::BuildMetadata` ordering: empty sorts below nonempty, then
identifier by identifier. -/
def buildCompare (a b : List Ident) : Ordering :=
  identsCompare a b

/-- Total order on versions, following `impl Ord for semver::Version`:
major, minor, patch, pre-release, then build metadata. -/
def versionCompare (a b : Version) : Ordering :=
  ((((compare a.major b.major).then (compare a.minor b.minor)).then
    (compare a.patch b.patch)).then (preCompare a.pre b.pre)).then
    (buildCompare a.build b.build)

/-- `a >= b` on versions, via `Ord` as the Rust comparison operators are. -/
def vGe (a b : Version) : Bool := versionCompare a b != .lt

/-- `a <= b` on versions. -/
def vLe (a b : Version) : Bool := versionCompare a b != .gt

/-- `a < b` on versions. -/
def vLt (a b : Version) : Bool := versionCompare a b == .lt

/-- The decimal digit characters. -/
def digitCh : Nat → Char
  | 0 => '0' | 1 => '1' | 2 => '2' | 3 => '3' | 4 => '4'
  | 5 => '5' | 6 => '6' | 7 => '7' | 8 => '8' | _ => '9'

/-- Big-endian decimal digit characters of a positive number; the first
argument is structural fuel (any bound strictly above the number works). -/
def natCharsAux : Nat → Nat → Str
  | 0, _ => []
  | _ + 1, 0 => []
  | fuel + 1, n + 1 =>
    natCharsAux fuel ((n + 1) / 10) ++ [digitCh ((n + 1) % 10)]

/-- Decimal rendering of a natural number, without leading zeros. -/
def printNat (n : Nat) : Str :=
  if n = 0 then ['0'] else natCharsAux (n + 1) n

/-- Rendering of a single identifier. -/
def printIdent : Ident → Str
  | .num n => printNat n
  | .alpha s => s

/-- Rendering of a dot-separated identifier list. -/
def printIdents (ids : List Ident) : Str :=
  List.intercalate ['.'] (ids.map printIdent)

/-- `Display for semver::Version`: `major.minor.patch`, then `-pre` and
`+build` when those parts are nonempty. -/
def printVersion (v : Version) : Str :=
  printNat v.major ++ '.' :: printNat v.minor ++ '.' :: printNat v.patch
    ++ (if v.pre = [] then [] else '-' :: printIdents v.pre)
    ++ (if v.build = [] then [] else '+' :: printIdents v.build)

/-- Modelled from the spec: `platform.rs` is not among the given sources.
The spec fixes a closed enumeration of platform tags
(`linux-amd64`, `linux-aarch64`, `macos-amd64`, `macos-aarch64`,
`windows-amd64`) plus a catch-all variant carrying its own tag. -/
inductive Platform where
  | linuxAmd64
  | linuxAarch64
  | macOsAmd64
  | macOsAarch64
  | windowsAmd64
  | other (tag : Str)
deriving DecidableEq, Repr

/-- Modelled from the spec: the `Display` tag of each platform, used when
formatting URLs and error messages. -/
def platformStr : Platform → Str
  | .linuxAmd64 => "linux-amd64".data
  | .linuxAarch64 => "linux-aarch64".data
  | .macOsAmd64 => "macos-amd64".data
  | .macOsAarch64 => "macos-aarch64".data
  | .windowsAmd64 => "windows-amd64".data
  | .other tag => tag

/-- Modelled from the spec: the error enum `SvmError` is declared outside
the given sources; the variants and payloads follow their construction
sites in `install.rs` and `releases.rs` and the spec's error taxonomy. -/
inductive SvmError where
  | unknownVersion
  | unsupportedVersion (version platform : Str)
  | checksumMismatch (version expected actual : Str)
  | unsuccessfulResponse (url : Str) (status : Nat)
  | ioError
  | transportError
deriving DecidableEq, Repr

def ZKSOLC_RELEASES_URL : Str :=
  "https://github.com/dutterbutter/zksolc-bin/tree/db/generate-list".data

def LINUX_AARCH64_URL_PREFIX : Str :=
  "https://github.com/dutterbutter/zksolc-bin/raw/db/generate-list/linux-arm64".data

def MACOS_AARCH64_URL_PREFIX : Str :=
  "https://github.com/dutterbutter/zksolc-bin/raw/db/generate-list/macosx-arm64".data

def MACOS_AMD64_URL_PREFIX : Str :=
  "https://github.com/dutterbutter/zksolc-bin/raw/db/generate-list/macosx-amd64".data

def LINUX_AMD64_URL_PREFIX : Str :=
  "https://github.com/dutterbutter/zksolc-bin/raw/db/generate-list/linux-amd64".data

def WINDOWS_AMD64_URL_PREFIX : Str :=
  "https://github.com/dutterbutter/zksolc-bin/raw/db/generate-list/windows-amd64".data

def VERSION_MAX : Version := ⟨1, 4, 1, [], []⟩

def VERSION_MIN : Version := ⟨1, 3, 13, [], []⟩

/-- The `url` crate is external to the repository; `Url::parse` succeeds on
the well-formed absolute URLs built by `artifact_url`, and a parsed URL is
modelled as its string. -/
def urlParse (s : Str) : Except SvmError Str := .ok s

/-- `artifact_url` from `crates/svm-rs/src/releases.rs`: the per-platform
URL table with its version-range gates, translated branch for branch (the
Rust early returns become an if-else chain). -/
def artifact_url (platform : Platform) (version : Version) (artifact : Str) :
    Except SvmError Str :=
  if platform = .linuxAmd64 then
    if vGe version VERSION_MIN && vLe version VERSION_MAX then
      urlParse (LINUX_AMD64_URL_PREFIX ++ '/' :: artifact)
    else
      .error (.unsupportedVersion (printVersion version) (platformStr platform))
  else if platform = .linuxAarch64 then
    if vGe version VERSION_MIN && vLe version VERSION_MAX then
      urlParse (LINUX_AARCH64_URL_PREFIX ++ '/' :: artifact)
    else
      .error (.unsupportedVersion (printVersion version) (platformStr platform))
  else if vLt version VERSION_MIN then
    .error (.unsupportedVersion (printVersion version) (platformStr platform))
  else if platform = .macOsAarch64 then
    if vGe version VERSION_MIN && vLe version VERSION_MAX then
      urlParse (MACOS_AARCH64_URL_PREFIX ++ '/' :: artifact)
    else
      .error (.unsupportedVersion (printVersion version) (platformStr platform))
  else if platform = .macOsAmd64 then
    if vGe version VERSION_MIN && vLe version VERSION_MAX then
      urlParse (MACOS_AMD64_URL_PREFIX ++ '/' :: artifact)
    else
      .error (.unsupportedVersion (printVersion version) (platformStr platform))
  else if platform = .windowsAmd64 then
    if vGe version VERSION_MIN && vLe version VERSION_MAX then
      urlParse (WINDOWS_AMD64_URL_PREFIX ++ '/' :: artifact)
    else
      .error (.unsupportedVersion (printVersion version) (platformStr platform))
  else
    urlParse (ZKSOLC_RELEASES_URL ++ '/' :: platformStr platform ++ '/' :: artifact)

/-- Sanity check mirroring the repository's `test_artifact_url` unit test. -/
example :
    artifact_url .linuxAarch64 ⟨1, 3, 17, [], []⟩
      "zksolc-linux-arm64-musl-v1.3.17".data =
    .ok (LINUX_AARCH64_URL_PREFIX ++ '/' :: "zksolc-linux-arm64-musl-v1.3.17".data) := by
  rfl

theorem vLt_eq_true_iff {a b : Version} :
    vLt a b = true ↔ versionCompare a b = .lt := by
  unfold vLt; cases versionCompare a b <;> decide

theorem vLt_eq_false_iff {a b : Version} :
    vLt a b = false ↔ versionCompare a b ≠ .lt := by
  unfold vLt; cases versionCompare a b <;> decide

theorem vGe_eq_true_iff {a b : Version} :
    vGe a b = true ↔ versionCompare a b ≠ .lt := by
  unfold vGe; cases versionCompare a b <;> decide

theorem vGe_eq_false_iff {a b : Version} :
    vGe a b = false ↔ versionCompare a b = .lt := by
  unfold vGe; cases versionCompare a b <;> decide

/-- The fixed URL prefix of each of the five named platforms (the catch-all
falls back to the generic releases URL). -/
def fixedPrefix : Platform → Str
  | .linuxAmd64 => LINUX_AMD64_URL_PREFIX
  | .linuxAarch64 => LINUX_AARCH64_URL_PREFIX
  | .macOsAmd64 => MACOS_AMD64_URL_PREFIX
  | .macOsAarch64 => MACOS_AARCH64_URL_PREFIX
  | .windowsAmd64 => WINDOWS_AMD64_URL_PREFIX
  | .other _ => ZKSOLC_RELEASES_URL

/-- C4: for every platform and artifact name, a version strictly below the
minimum supported version 1.3.13 makes `artifact_url` return
`UnsupportedVersionError` carrying the version and platform strings, never
a URL. -/
theorem c4_below_min_unsupported (p : Platform) (a : Str) (v : Version)
    (h : vLt v VERSION_MIN = true) :
    artifact_url p v a =
      .error (.unsupportedVersion (printVersion v) (platformStr p)) := by
  have hge : vGe v VERSION_MIN = false := vGe_eq_false_iff.mpr (vLt_eq_true_iff.mp h)
  cases p <;> simp [artifact_url, hge, h]

/-- Witness for C4 at version 1.3.12 on macos-amd64. -/
theorem c4_below_min_unsupported_witness :
    vLt ⟨1, 3, 12, [], []⟩ VERSION_MIN = true ∧
    artifact_url .macOsAmd64 ⟨1, 3, 12, [], []⟩ ['x'] =
      .error (.unsupportedVersion (printVersion ⟨1, 3, 12, [], []⟩)
        (platformStr .macOsAmd64)) :=
  ⟨by decide, c4_below_min_unsupported .macOsAmd64 ['x'] ⟨1, 3, 12, [], []⟩ (by decide)⟩

/-- C5: for each of the five named platforms and any version in the
inclusive range [1.3.13, 1.4.1], `artifact_url` succeeds with the platform's
fixed prefix followed by the artifact name; the URL hence begins with the
prefix and ends with the artifact name. -/
theorem c5_supported_range_url (p : Platform) (v : Version) (a : Str)
    (hp : p ∈ [Platform.linuxAmd64, Platform.linuxAarch64, Platform.macOsAmd64,
      Platform.macOsAarch64, Platform.windowsAmd64])
    (h1 : vGe v VERSION_MIN = true) (h2 : vLe v VERSION_MAX = true) :
    artifact_url p v a = .ok (fixedPrefix p ++ '/' :: a) ∧
    (∃ rest, fixedPrefix p ++ '/' :: a = fixedPrefix p ++ rest) ∧
    (∃ init, fixedPrefix p ++ '/' :: a = init ++ a) := by
  have hlt : vLt v VERSION_MIN = false := vLt_eq_false_iff.mpr (vGe_eq_true_iff.mp h1)
  refine ⟨?_, ⟨'/' :: a, rfl⟩, ⟨fixedPrefix p ++ ['/'], by simp⟩⟩
  simp only [List.mem_cons, List.not_mem_nil, or_false] at hp
  rcases hp with rfl | rfl | rfl | rfl | rfl <;>
    simp [artifact_url, fixedPrefix, urlParse, h1, h2, hlt]

/-- Witness for C5: linux-amd64, version 1.3.17, the catalog's artifact
name, exactly the scenario named by the spec. -/
theorem c5_supported_range_url_witness :
    vGe ⟨1, 3, 17, [], []⟩ VERSION_MIN = true ∧
    vLe ⟨1, 3, 17, [], []⟩ VERSION_MAX = true ∧
    artifact_url .linuxAmd64 ⟨1, 3, 17, [], []⟩ "zksolc-linux-amd64-v1.3.17".data =
      .ok (fixedPrefix .linuxAmd64 ++ '/' :: "zksolc-linux-amd64-v1.3.17".data) :=
  ⟨by decide, by decide,
    (c5_supported_range_url .linuxAmd64 ⟨1, 3, 17, [], []⟩
      "zksolc-linux-amd64-v1.3.17".data (by decide) (by decide) (by decide)).1⟩

/-- C9: on every catch-all platform, `artifact_url` succeeds for every
version at least 1.3.13 — the inclusive upper bound 1.4.1 is not enforced
on this fallback path — returning the generic
`<ZKSOLC_RELEASES_URL>/<platform>/<artifact>` URL. -/
theorem c9_catchall_fallback_url (tag : Str) (v : Version) (a : Str)
    (h : vGe v VERSION_MIN = true) :
    artifact_url (.other tag) v a =
      .ok (ZKSOLC_RELEASES_URL ++ '/' :: tag ++ '/' :: a) := by
  have hlt : vLt v VERSION_MIN = false := vLt_eq_false_iff.mpr (vGe_eq_true_iff.mp h)
  simp [artifact_url, hlt, urlParse, platformStr]

/-- Witness for C9 at version 9.9.9, which lies strictly above the maximum
1.4.1 and is still served from the fallback URL. -/
theorem c9_catchall_fallback_url_witness :
    vGe ⟨9, 9, 9, [], []⟩ VERSION_MIN = true ∧
    vLe ⟨9, 9, 9, [], []⟩ VERSION_MAX = false ∧
    artifact_url (.other "riscv64".data) ⟨9, 9, 9, [], []⟩ ['a'] =
      .ok (ZKSOLC_RELEASES_URL ++ '/' :: "riscv64".data ++ '/' :: ['a']) :=
  ⟨by decide, by decide,
    c9_catchall_fallback_url "riscv64".data ⟨9, 9, 9, [], []⟩ ['a'] (by decide)⟩

/-- Truncation to a 32-bit word. -/
def w32 (n : Nat) : Nat := n % 4294967296

/-- Right rotation of a 32-bit word by `k` bits. -/
def rotr (k x : Nat) : Nat := x / 2 ^ k + x % 2 ^ k * 2 ^ (32 - k)

/-- Bitwise complement of a 32-bit word. -/
def notW32 (x : Nat) : Nat := 4294967295 - x

def sha256Ch (e f g : Nat) : Nat := (e &&& f) ^^^ (notW32 e &&& g)

def sha256Maj (a b c : Nat) : Nat := (a &&& b) ^^^ (a &&& c) ^^^ (b &&& c)

def sha256S0 (a : Nat) : Nat := rotr 2 a ^^^ rotr 13 a ^^^ rotr 22 a

def sha256S1 (e : Nat) : Nat := rotr 6 e ^^^ rotr 11 e ^^^ rotr 25 e

def sha256s0 (x : Nat) : Nat := rotr 7 x ^^^ rotr 18 x ^^^ x / 8

def sha256s1 (x : Nat) : Nat := rotr 17 x ^^^ rotr 19 x ^^^ x / 1024

/-- The SHA-256 round constants. -/
def K256 : List Nat :=
  [1116352408, 1899447441, 3049323471, 3921009573, 961987163,
   1508970993, 2453635748, 2870763221, 3624381080, 310598401,
   607225278, 1426881987, 1925078388, 2162078206, 2614888103,
   3248222580, 3835390401, 4022224774, 264347078, 604807628,
   770255983, 1249150122, 1555081692, 1996064986, 2554220882,
   2821834349, 2952996808, 3210313671, 3336571891, 3584528711,
   113926993, 338241895, 666307205, 773529912, 1294757372,
   1396182291, 1695183700, 1986661051, 2177026350, 2456956037,
   2730485921, 2820302411, 3259730800, 3345764771, 3516065817,
   3600352804, 4094571909, 275423344, 430227734, 506948616,
   659060556, 883997877, 958139571, 1322822218, 1537002063,
   1747873779, 1955562222, 2024104815, 2227730452, 2361852424,
   2428436474, 2756734187, 3204031479, 3329325298]

/-- The SHA-256 initial hash state. -/
def H256 : List Nat :=
  [1779033703, 3144134277, 1013904242, 2773480762,
   1359893119, 2600822924, 528734635, 1541459225]

/-- Extend the 16 words of a block to the 64-word message schedule. -/
def sha256Schedule (ws : List Nat) : List Nat :=
  (List.range 48).foldl
    (fun w _ =>
      let n := w.length
      let x := w32 (sha256s1 (w.getD (n - 2) 0) + w.getD (n - 7) 0 +
        sha256s0 (w.getD (n - 15) 0) + w.getD (n - 16) 0)
      w ++ [x])
    ws

/-- One SHA-256 compression of a 16-word block into the running state. -/
def sha256Compress (h : List Nat) (block : List Nat) : List Nat :=
  let st := ((sha256Schedule block).zip K256).foldl
    (fun st wk =>
      match st with
      | [a, b, c, d, e, f, g, hh] =>
        let t1 := w32 (hh + sha256S1 e + sha256Ch e f g + wk.2 + wk.1)
        let t2 := w32 (sha256S0 a + sha256Maj a b c)
        [w32 (t1 + t2), a, b, c, w32 (d + t1), e, f, g]
      | st => st)
    h
  match h, st with
  | [h0, h1, h2, h3, h4, h5, h6, h7], [a, b, c, d, e, f, g, hh] =>
    [w32 (h0 + a), w32 (h1 + b), w32 (h2 + c), w32 (h3 + d),
     w32 (h4 + e), w32 (h5 + f), w32 (h6 + g), w32 (h7 + hh)]
  | _, _ => st

/-- SHA-256 padding: `0x80`, zeros, then the bit length as 8 big-endian
bytes, up to a multiple of 64 bytes. -/
def sha256Pad (msg : List Nat) : List Nat :=
  let L := msg.length
  let zeros := (64 - (L + 9) % 64) % 64
  let bits := 8 * L
  msg ++ 128 :: List.replicate zeros 0 ++
    [bits / 2 ^ 56 % 256, bits / 2 ^ 48 % 256, bits / 2 ^ 40 % 256,
     bits / 2 ^ 32 % 256, bits / 2 ^ 24 % 256, bits / 2 ^ 16 % 256,
     bits / 2 ^ 8 % 256, bits % 256]

/-- The big-endian 32-bit word starting at byte offset `i`. -/
def sha256Word (padded : List Nat) (i : Nat) : Nat :=
  16777216 * padded.getD i 0 + 65536 * padded.getD (i + 1) 0 +
    256 * padded.getD (i + 2) 0 + padded.getD (i + 3) 0

/-- Split the padded message into 16-word blocks. -/
def sha256Blocks (padded : List Nat) : List (List Nat) :=
  (List.range (padded.length / 64)).map
    (fun b => (List.range 16).map (fun j => sha256Word padded (64 * b + 4 * j)))

/-- SHA-256 of a byte sequence, as the 32-byte digest. -/
def sha256 (msg : List Nat) : List Nat :=
  (((sha256Blocks (sha256Pad msg)).foldl sha256Compress H256).map
    (fun h => [h / 16777216 % 256, h / 65536 % 256, h / 256 % 256, h % 256])).flatten

/-- FIPS 180-4 test vector: the digest of the empty message. -/
example :
    sha256 [] =
    [227, 176, 196, 66, 152, 252, 28, 20, 154, 251,
     244, 200, 153, 111, 185, 36, 39, 174, 65, 228,
     100, 155, 147, 76, 164, 149, 153, 27, 120, 82,
     184, 85] := by decide

/-- FIPS 180-4 test vector: the digest of `"abc"`. -/
example :
    sha256 [97, 98, 99] =
    [186, 120, 22, 191, 143, 1, 207, 234, 65, 65,
     64, 222, 93, 174, 34, 35, 176, 3, 97, 163,
     150, 23, 122, 156, 180, 16, 255, 97, 242, 0,
     21, 173] := by decide

/-- The lowercase hexadecimal digit characters. -/
def hexDigitCh : Nat → Char
  | 0 => '0' | 1 => '1' | 2 => '2' | 3 => '3' | 4 => '4' | 5 => '5'
  | 6 => '6' | 7 => '7' | 8 => '8' | 9 => '9' | 10 => 'a' | 11 => 'b'
  | 12 => 'c' | 13 => 'd' | 14 => 'e' | _ => 'f'

/-- `hex::encode`: lowercase hex rendering of a byte sequence, two digits
per byte, no prefix. -/
def hex_encode (bs : List Nat) : Str :=
  (bs.map (fun b => [hexDigitCh (b / 16), hexDigitCh (b % 16)])).flatten

/-- `hex::encode_prefixed`: as `hex_encode` but with a leading `0x`. -/
def hex_encode_prefixed (bs : List Nat) : Str :=
  '0' :: 'x' :: hex_encode bs

/-- The value of a hexadecimal digit character, upper or lower case,
computed from the character code. -/
def hexCharVal (c : Char) : Option Nat :=
  if 48 ≤ c.toNat ∧ c.toNat ≤ 57 then some (c.toNat - 48)
  else if 97 ≤ c.toNat ∧ c.toNat ≤ 102 then some (c.toNat - 87)
  else if 65 ≤ c.toNat ∧ c.toNat ≤ 70 then some (c.toNat - 55)
  else none

/-- Decode hex digit pairs into bytes; fails on an odd length or a
non-hex character. -/
def hexPairs : Str → Option (List Nat)
  | [] => some []
  | [_] => none
  | a :: b :: rest =>
    match hexCharVal a, hexCharVal b, hexPairs rest with
    | some x, some y, some tl => some ((16 * x + y) :: tl)
    | _, _, _ => none

/-- `hex::decode`: strips an optional `0x` prefix, then decodes digit
pairs. -/
def hex_decode (s : Str) : Option (List Nat) :=
  match s with
  | '0' :: 'x' :: rest => hexPairs rest
  | s => hexPairs s

/-- `ensure_checksum` from `crates/zksvm-rs/src/install.rs`: hash the
downloaded bytes with SHA-256 and compare byte-for-byte against the
expected checksum; a mismatch reports the version and both digests in
hex. -/
def ensure_checksum (binbytes : List Nat) (version : Version)
    (expected_checksum : List Nat) : Except SvmError Unit :=
  let checksum := sha256 binbytes
  if checksum ≠ expected_checksum then
    .error (.checksumMismatch (printVersion version)
      (hex_encode expected_checksum) (hex_encode checksum))
  else
    .ok ()

/-- `BuildInfo` from `crates/svm-rs/src/releases.rs`: a version together
with the raw bytes of its SHA-256 checksum. -/
structure BuildInfo where
  version : Version
  sha256 : List Nat
deriving DecidableEq, Repr

/-- `Releases` from `crates/svm-rs/src/releases.rs`: the build records and
the version-to-artifact-name map. The `BTreeMap` is modelled as its
key-ordered entry list. -/
structure Releases where
  builds : List BuildInfo
  releases : List (Version × Str)
deriving DecidableEq, Repr

/-- The scan in `Releases::get_checksum`: walk `builds` in order and return
the digest of the first record whose version equals the requested one. -/
def getChecksumScan : List BuildInfo → Version → Option (List Nat)
  | [], _ => none
  | b :: rest, v =>
    if b.version = v then some b.sha256 else getChecksumScan rest v

/-- `Releases::get_checksum`. -/
def Releases.get_checksum (r : Releases) (v : Version) : Option (List Nat) :=
  getChecksumScan r.builds v

/-- `Releases::get_artifact` (`BTreeMap::get`), modelled as first-key
lookup in the entry list. -/
def Releases.get_artifact (r : Releases) (v : Version) : Option Str :=
  (r.releases.find? (fun p => p.1 == v)).map (fun p => p.2)

/-- C3: `ensure_checksum` succeeds exactly when the expected digest equals
the SHA-256 digest of the bytes; on failure it returns
`ChecksumMismatchError` carrying the version string and the hex-encoded
expected and actual digests. -/
theorem c3_ensure_checksum_spec (b : List Nat) (v : Version) (e : List Nat) :
    (ensure_checksum b v e = .ok () ↔ e = sha256 b) ∧
    (e ≠ sha256 b →
      ensure_checksum b v e =
        .error (.checksumMismatch (printVersion v) (hex_encode e)
          (hex_encode (sha256 b)))) := by
  by_cases hx : sha256 b = e
  · subst hx
    exact ⟨by simp [ensure_checksum], fun hne => absurd rfl hne⟩
  · have herr : ensure_checksum b v e =
        .error (.checksumMismatch (printVersion v) (hex_encode e)
          (hex_encode (sha256 b))) := by
      simp [ensure_checksum, hx]
    exact ⟨by rw [herr]; exact iff_of_false (by simp) (fun h => hx h.symm),
      fun _ => herr⟩

/-- The SHA-256 digest of the empty byte sequence. -/
def DIGEST_EMPTY : List Nat :=
  [227, 176, 196, 66, 152, 252, 28, 20, 154, 251,
   244, 200, 153, 111, 185, 36, 39, 174, 65, 228,
   100, 155, 147, 76, 164, 149, 153, 27, 120, 82,
   184, 85]

/-- The same digest with the lowest bit of the final byte flipped. -/
def DIGEST_EMPTY_FLIP : List Nat :=
  [227, 176, 196, 66, 152, 252, 28, 20, 154, 251,
   244, 200, 153, 111, 185, 36, 39, 174, 65, 228,
   100, 155, 147, 76, 164, 149, 153, 27, 120, 82,
   184, 84]

/-- Witness for C3: the empty byte sequence with its correct digest, and
with that digest's last bit flipped. -/
theorem c3_ensure_checksum_spec_witness :
    ensure_checksum [] ⟨1, 3, 17, [], []⟩ DIGEST_EMPTY = .ok () ∧
    DIGEST_EMPTY_FLIP ≠ sha256 [] ∧
    ensure_checksum [] ⟨1, 3, 17, [], []⟩ DIGEST_EMPTY_FLIP =
      .error (.checksumMismatch (printVersion ⟨1, 3, 17, [], []⟩)
        (hex_encode DIGEST_EMPTY_FLIP) (hex_encode (sha256 []))) :=
  ⟨(c3_ensure_checksum_spec [] ⟨1, 3, 17, [], []⟩ DIGEST_EMPTY).1.mpr (by decide),
   by decide,
   (c3_ensure_checksum_spec [] ⟨1, 3, 17, [], []⟩ DIGEST_EMPTY_FLIP).2 (by decide)⟩

theorem getChecksumScan_eq_find (bs : List BuildInfo) (v : Version) :
    getChecksumScan bs v =
      (bs.find? (fun b => b.version == v)).map BuildInfo.sha256 := by
  induction bs with
  | nil => rfl
  | cons b rest ih =>
    by_cases hb : b.version = v
    · simp [getChecksumScan, hb]
    · simp [getChecksumScan, hb, ih]

theorem getChecksumScan_append_first (pre : List BuildInfo) (b : BuildInfo)
    (rest : List BuildInfo) (v : Version) (hb : b.version = v)
    (hpre : ∀ b2 ∈ pre, b2.version ≠ v) :
    getChecksumScan (pre ++ b :: rest) v = some b.sha256 := by
  induction pre with
  | nil => simp [getChecksumScan, hb]
  | cons p ps ih =>
    have hp : p.version ≠ v := hpre p (by simp)
    simpa [getChecksumScan, hp] using ih (fun b2 h2 => hpre b2 (by simp [h2]))

/-- C10: `get_checksum` returns the digest of the first build record (in
list order) whose version matches, and `none` exactly when no record
matches; with duplicate versions the earlier record's digest wins. -/
theorem c10_get_checksum_first (r : Releases) (v : Version) :
    r.get_checksum v =
      (r.builds.find? (fun b => b.version == v)).map BuildInfo.sha256 ∧
    (r.get_checksum v = none ↔ ∀ b ∈ r.builds, b.version ≠ v) ∧
    (∀ pre b rest, r.builds = pre ++ b :: rest → b.version = v →
      (∀ b2 ∈ pre, b2.version ≠ v) → r.get_checksum v = some b.sha256) := by
  refine ⟨getChecksumScan_eq_find r.builds v, ?_, ?_⟩
  · rw [Releases.get_checksum, getChecksumScan_eq_find]
    simp [List.find?_eq_none]
  · intro pre b rest hsplit hb hpre
    rw [Releases.get_checksum, hsplit]
    exact getChecksumScan_append_first pre b rest v hb hpre

/-- Witness for C10: a catalog whose builds list has two records for the
same version with different digests; the earlier digest is returned. -/
theorem c10_get_checksum_first_witness :
    Releases.get_checksum
      ⟨[⟨⟨1, 3, 17, [], []⟩, [1]⟩, ⟨⟨1, 3, 17, [], []⟩, [2]⟩], []⟩
      ⟨1, 3, 17, [], []⟩ = some [1] :=
  (c10_get_checksum_first
      ⟨[⟨⟨1, 3, 17, [], []⟩, [1]⟩, ⟨⟨1, 3, 17, [], []⟩, [2]⟩], []⟩
      ⟨1, 3, 17, [], []⟩).2.2
    [] ⟨⟨1, 3, 17, [], []⟩, [1]⟩ [⟨⟨1, 3, 17, [], []⟩, [2]⟩] rfl rfl
    (by simp)

/-- ASCII decimal digit test. -/
def isDigitChB (c : Char) : Bool := 48 ≤ c.toNat && c.toNat ≤ 57

/-- The numeric value of a decimal digit character. -/
def digitVal (c : Char) : Nat := c.toNat - 48

/-- Characters allowed in a semver identifier: ASCII alphanumerics and
hyphen. -/
def isIdentCh (c : Char) : Bool :=
  (48 ≤ c.toNat && c.toNat ≤ 57) || (65 ≤ c.toNat && c.toNat ≤ 90) ||
    (97 ≤ c.toNat && c.toNat ≤ 122) || c = '-'

/-- Parse a decimal number as semver does: nonempty, all digits, no
leading zero. -/
def parseNat (s : Str) : Option Nat :=
  if s = [] then none
  else if !s.all isDigitChB then none
  else if s.head? = some '0' && s.length != 1 then none
  else some (s.foldl (fun a c => a * 10 + digitVal c) 0)

/-- Parse one identifier: all-digit identifiers are numeric (leading zeros
rejected, as in semver pre-release position), others alphanumeric. -/
def parseIdent (s : Str) : Option Ident :=
  if s = [] then none
  else if s.all isDigitChB then (parseNat s).map .num
  else if s.all isIdentCh then some (.alpha s)
  else none

/-- Parse a dot-separated identifier sequence. -/
def parseIdents (s : Str) : Option (List Ident) :=
  (s.splitOn '.').mapM parseIdent

/-- Split at the first occurrence of a character; `none` when absent. -/
def splitAtFirst (c : Char) : Str → Option (Str × Str)
  | [] => none
  | x :: xs =>
    if x = c then some ([], xs)
    else (splitAtFirst c xs).map (fun p => (x :: p.1, p.2))

/-- `FromStr for semver::Version`: the `major.minor.patch` core, an
optional pre-release after the first `-` following the core, an optional
build part after the first `+`. -/
def parseVersion (s : Str) : Option Version :=
  let bsplit := splitAtFirst '+' s
  let core1 := match bsplit with | none => s | some p => p.1
  let buildPart := match bsplit with | none => none | some p => some p.2
  let psplit := splitAtFirst '-' core1
  let core := match psplit with | none => core1 | some p => p.1
  let prePart := match psplit with | none => none | some p => some p.2
  match core.splitOn '.' with
  | [ma, mi, pa] =>
    match parseNat ma, parseNat mi, parseNat pa with
    | some major, some minor, some patch =>
      let preIds := match prePart with
        | none => some []
        | some ps => if ps = [] then none else parseIdents ps
      let buildIds := match buildPart with
        | none => some []
        | some bs => if bs = [] then none else parseIdents bs
      match preIds, buildIds with
      | some pre, some build => some ⟨major, minor, patch, pre, build⟩
      | _, _ => none
    | _, _, _ => none
  | _ => none

/-- Well-formedness of an identifier value, mirroring what
`semver::Prerelease::new` admits: an alphanumeric identifier is nonempty,
uses only identifier characters, and is not all digits (it would have been
classified numeric). -/
def wfIdentB : Ident → Bool
  | .num _ => true
  | .alpha s => !s.isEmpty && s.all isIdentCh && !s.all isDigitChB

/-- Well-formedness of a version value: every pre-release and build
identifier is well-formed. -/
def wfVersionB (v : Version) : Bool :=
  v.pre.all wfIdentB && v.build.all wfIdentB

/-- JSON trees, as far as the release manifest needs them. Serialization
is modelled at the tree level: `serde_json` text encoding of these string
and object shapes is faithful. -/
inductive Json where
  | str (s : Str)
  | arr (xs : List Json)
  | obj (fields : List (Str × Json))

/-- Derived `Serialize for BuildInfo`: field order as declared, the
checksum through the `hex_string` module (`hex::encode_prefixed`), the
version through `Display`. -/
def serializeBuild (b : BuildInfo) : Json :=
  .obj [("version".data, .str (printVersion b.version)),
        ("sha256".data, .str (hex_encode_prefixed b.sha256))]

/-- Derived `Serialize for Releases`: `builds` then `releases`, the map
serialized entry by entry with `Display` keys. -/
def serializeReleases (r : Releases) : Json :=
  .obj [("builds".data, .arr (r.builds.map serializeBuild)),
        ("releases".data,
          .obj (r.releases.map (fun p => (printVersion p.1, .str p.2))))]

/-- Derived `Deserialize for BuildInfo`: the version through `FromStr`,
the checksum through the `hex_string` module (`hex::decode`). -/
def deserializeBuild : Json → Option BuildInfo
  | .obj [(k1, .str vs), (k2, .str ss)] =>
    if k1 = "version".data ∧ k2 = "sha256".data then
      match parseVersion vs, hex_decode ss with
      | some v, some bytes => some ⟨v, bytes⟩
      | _, _ => none
    else none
  | _ => none

/-- One entry of the `releases` map: a `Display` key and a string value. -/
def deserializeEntry : Str × Json → Option (Version × Str)
  | (k, .str a) => (parseVersion k).map (fun v => (v, a))
  | (_, _) => none

/-- Derived `Deserialize for Releases` on the canonical serialized shape. -/
def deserializeReleases : Json → Option Releases
  | .obj [(k1, .arr bs), (k2, .obj kvs)] =>
    if k1 = "builds".data ∧ k2 = "releases".data then
      match bs.mapM deserializeBuild, kvs.mapM deserializeEntry with
      | some builds, some rels => some ⟨builds, rels⟩
      | _, _ => none
    else none
  | _ => none

theorem digitCh_isDigit (d : Nat) (hd : d < 10) : isDigitChB (digitCh d) = true := by
  interval_cases d <;> decide

theorem digitVal_digitCh (d : Nat) (hd : d < 10) : digitVal (digitCh d) = d := by
  interval_cases d <;> decide

theorem digitCh_ne_zeroCh (d : Nat) (hd : d < 10) (h0 : d ≠ 0) : digitCh d ≠ '0' := by
  interval_cases d <;> first | exact absurd rfl h0 | decide

theorem natCharsAux_eq_digits (fuel : Nat) :
    ∀ n, 0 < n → n < fuel →
      natCharsAux fuel n = (Nat.digits 10 n).reverse.map digitCh := by
  induction fuel with
  | zero => intro n _ h2; omega
  | succ f ih =>
    intro n h1 h2
    obtain ⟨m, rfl⟩ : ∃ m, n = m + 1 := ⟨n - 1, by omega⟩
    rw [natCharsAux]
    rw [Nat.digits_def' (by norm_num : 1 < 10) (Nat.succ_pos m)]
    rw [List.reverse_cons, List.map_append]
    by_cases hz : (m + 1) / 10 = 0
    · rw [hz]
      obtain ⟨f2, rfl⟩ : ∃ f2, f = f2 + 1 := ⟨f - 1, by omega⟩
      simp [natCharsAux]
    · have hdl : (m + 1) / 10 < m + 1 := Nat.div_lt_self (Nat.succ_pos m) (by norm_num)
      rw [ih _ (Nat.pos_of_ne_zero hz) (by omega)]
      simp

theorem printNat_pos (n : Nat) (hn : n ≠ 0) :
    printNat n = (Nat.digits 10 n).reverse.map digitCh := by
  rw [printNat, if_neg hn]
  exact natCharsAux_eq_digits (n + 1) n (Nat.pos_of_ne_zero hn) (by omega)

theorem printNat_ne_nil (n : Nat) : printNat n ≠ [] := by
  by_cases hn : n = 0
  · subst hn; decide
  · rw [printNat_pos n hn]
    simp [Nat.digits_ne_nil_iff_ne_zero, hn]

theorem printNat_all_digits (n : Nat) : (printNat n).all isDigitChB = true := by
  by_cases hn : n = 0
  · subst hn; decide
  · rw [printNat_pos n hn, List.all_eq_true]
    intro c hc
    simp only [List.mem_map, List.mem_reverse] at hc
    obtain ⟨d, hd, rfl⟩ := hc
    exact digitCh_isDigit d (Nat.digits_lt_base (by norm_num) hd)

theorem printNat_head_ne_zero (n : Nat) (hn : n ≠ 0) :
    (printNat n).head? ≠ some '0' := by
  have hne : Nat.digits 10 n ≠ [] := Nat.digits_ne_nil_iff_ne_zero.mpr hn
  have hgl : (Nat.digits 10 n).getLast hne ≠ 0 := Nat.getLast_digit_ne_zero 10 hn
  have hlt : (Nat.digits 10 n).getLast hne < 10 :=
    Nat.digits_lt_base (by norm_num) (List.getLast_mem hne)
  intro hc
  rw [printNat_pos n hn, List.head?_map, List.head?_reverse,
    List.getLast?_eq_getLast _ hne] at hc
  exact digitCh_ne_zeroCh _ hlt hgl (Option.some.inj hc)

theorem foldl_digitVal_map (ds : List Nat) (hd : ∀ d ∈ ds, d < 10) :
    ∀ acc, (ds.map digitCh).foldl (fun a c => a * 10 + digitVal c) acc =
      ds.foldl (fun a d => a * 10 + d) acc := by
  induction ds with
  | nil => intro acc; rfl
  | cons d ds ih =>
    intro acc
    simp only [List.map_cons, List.foldl_cons]
    rw [digitVal_digitCh d (hd d (by simp))]
    exact ih (fun x hx => hd x (by simp [hx])) _

theorem foldl_base_ten (ds : List Nat) :
    ∀ acc, ds.foldl (fun a d => a * 10 + d) acc =
      acc * 10 ^ ds.length + Nat.ofDigits 10 ds.reverse := by
  induction ds with
  | nil => intro acc; simp [Nat.ofDigits]
  | cons d ds ih =>
    intro acc
    simp only [List.foldl_cons, List.reverse_cons]
    rw [ih, Nat.ofDigits_append]
    simp [Nat.ofDigits_singleton]
    ring

theorem parseNat_printNat (n : Nat) : parseNat (printNat n) = some n := by
  by_cases hn : n = 0
  · subst hn; decide
  · have hnn := printNat_ne_nil n
    have hall := printNat_all_digits n
    have hd0 : decide ((printNat n).head? = some '0') = false :=
      decide_eq_false (printNat_head_ne_zero n hn)
    rw [parseNat, if_neg hnn, hall]
    simp only [Bool.not_true, Bool.false_eq_true, if_false]
    rw [hd0]
    simp only [Bool.false_and, Bool.false_eq_true, if_false]
    refine congrArg some ?_
    rw [printNat_pos n hn,
      foldl_digitVal_map _ (fun d hd =>
        Nat.digits_lt_base (by norm_num) (List.mem_reverse.mp hd)),
      foldl_base_ten]
    simp [Nat.ofDigits_digits]

theorem printNat_mem_digit {n : Nat} {c : Char} (hc : c ∈ printNat n) :
    isDigitChB c = true := by
  have h := printNat_all_digits n
  rw [List.all_eq_true] at h
  exact h c hc

theorem isDigit_isIdent {c : Char} (h : isDigitChB c = true) :
    isIdentCh c = true := by
  rw [isIdentCh]
  rw [isDigitChB] at h
  simp only [Bool.or_eq_true]
  exact Or.inl (Or.inl (Or.inl h))

theorem digit_ne_dot {c : Char} (h : isDigitChB c = true) : c ≠ '.' := by
  intro hc; subst hc; exact absurd h (by decide)

theorem digit_ne_dash {c : Char} (h : isDigitChB c = true) : c ≠ '-' := by
  intro hc; subst hc; exact absurd h (by decide)

theorem digit_ne_plus {c : Char} (h : isDigitChB c = true) : c ≠ '+' := by
  intro hc; subst hc; exact absurd h (by decide)

theorem identCh_ne_dot {c : Char} (h : isIdentCh c = true) : c ≠ '.' := by
  intro hc; subst hc; exact absurd h (by decide)

theorem identCh_ne_plus {c : Char} (h : isIdentCh c = true) : c ≠ '+' := by
  intro hc; subst hc; exact absurd h (by decide)

theorem printIdent_chars {i : Ident} (hw : wfIdentB i = true) :
    ∀ c ∈ printIdent i, isIdentCh c = true := by
  cases i with
  | num n => intro c hc; exact isDigit_isIdent (printNat_mem_digit hc)
  | alpha s =>
    intro c hc
    rw [wfIdentB, Bool.and_eq_true, Bool.and_eq_true] at hw
    have h2 := hw.1.2
    rw [List.all_eq_true] at h2
    exact h2 c hc

theorem printIdent_ne_nil {i : Ident} (hw : wfIdentB i = true) :
    printIdent i ≠ [] := by
  cases i with
  | num n => exact printNat_ne_nil n
  | alpha s =>
    rw [wfIdentB, Bool.and_eq_true, Bool.and_eq_true] at hw
    have h1 := hw.1.1
    rw [printIdent]
    intro hc
    rw [hc] at h1
    exact absurd h1 (by decide)

theorem parseIdent_printIdent (i : Ident) (hw : wfIdentB i = true) :
    parseIdent (printIdent i) = some i := by
  cases i with
  | num n =>
    rw [printIdent, parseIdent, if_neg (printNat_ne_nil n), printNat_all_digits n]
    rw [if_pos rfl, parseNat_printNat]
    rfl
  | alpha s =>
    rw [wfIdentB, Bool.and_eq_true, Bool.and_eq_true] at hw
    obtain ⟨⟨h1, h2⟩, h3⟩ := hw
    have hne : s ≠ [] := by
      intro hc; rw [hc] at h1; exact absurd h1 (by decide)
    rw [printIdent, parseIdent, if_neg hne]
    rw [Bool.not_eq_true'] at h3
    rw [h3, if_neg (by decide), h2, if_pos rfl]

theorem mapM_parseIdent_print (ids : List Ident)
    (hw : ∀ i ∈ ids, wfIdentB i = true) :
    (ids.map printIdent).mapM parseIdent = some ids := by
  induction ids with
  | nil => rfl
  | cons i ids ih =>
    rw [List.map_cons, List.mapM_cons, parseIdent_printIdent i (hw i (by simp)),
      ih (fun x hx => hw x (by simp [hx]))]
    rfl

theorem intercalate_cons_cons (x : Char) (a b : Str) (rest : List Str) :
    List.intercalate [x] (a :: b :: rest) =
      a ++ x :: List.intercalate [x] (b :: rest) := by
  simp [List.intercalate]

theorem intercalate_singleton_list (x : Char) (a : Str) :
    List.intercalate [x] [a] = a := by
  simp [List.intercalate]

theorem mem_printIdents : ∀ (ids : List Ident),
    (∀ i ∈ ids, wfIdentB i = true) →
    ∀ c ∈ printIdents ids, isIdentCh c = true ∨ c = '.' := by
  intro ids
  induction ids with
  | nil => intro _ c hc; simp [printIdents, List.intercalate] at hc
  | cons i rest ih =>
    intro hw c hc
    cases rest with
    | nil =>
      rw [printIdents, List.map_cons, List.map_nil,
        intercalate_singleton_list] at hc
      exact Or.inl (printIdent_chars (hw i (by simp)) c hc)
    | cons j rest2 =>
      rw [printIdents, List.map_cons, List.map_cons,
        intercalate_cons_cons] at hc
      rcases List.mem_append.mp hc with h1 | h2
      · exact Or.inl (printIdent_chars (hw i (by simp)) c h1)
      · rcases List.mem_cons.mp h2 with rfl | h3
        · exact Or.inr rfl
        · exact ih (fun x hx => hw x (by simp [hx])) c
            (by rw [printIdents, List.map_cons]; exact h3)

theorem printIdents_ne_nil {ids : List Ident} (hne : ids ≠ [])
    (hw : ∀ i ∈ ids, wfIdentB i = true) : printIdents ids ≠ [] := by
  cases ids with
  | nil => exact absurd rfl hne
  | cons i rest =>
    cases rest with
    | nil =>
      rw [printIdents, List.map_cons, List.map_nil, intercalate_singleton_list]
      exact printIdent_ne_nil (hw i (by simp))
    | cons j rest2 =>
      rw [printIdents, List.map_cons, List.map_cons, intercalate_cons_cons]
      intro hc
      rcases List.append_eq_nil.mp hc with ⟨_, h2⟩
      exact List.cons_ne_nil _ _ h2

theorem splitAtFirst_of_not_mem {c : Char} :
    ∀ {s : Str}, c ∉ s → splitAtFirst c s = none := by
  intro s
  induction s with
  | nil => intro _; rfl
  | cons x xs ih =>
    intro h
    rw [List.mem_cons, not_or] at h
    rw [splitAtFirst, if_neg (fun hx => h.1 hx.symm), ih h.2]
    rfl

theorem splitAtFirst_append {c : Char} :
    ∀ {a : Str} (b : Str), c ∉ a →
      splitAtFirst c (a ++ c :: b) = some (a, b) := by
  intro a
  induction a with
  | nil => intro b _; simp [splitAtFirst]
  | cons x xs ih =>
    intro b h
    rw [List.mem_cons, not_or] at h
    rw [List.cons_append, splitAtFirst, if_neg (fun hx => h.1 hx.symm), ih b h.2]
    rfl


/-- The `major.minor.patch` core of the printed version. -/
def coreStr (v : Version) : Str :=
  printNat v.major ++ '.' :: printNat v.minor ++ '.' :: printNat v.patch

theorem coreStr_eq_intercalate (v : Version) :
    coreStr v = List.intercalate ['.']
      [printNat v.major, printNat v.minor, printNat v.patch] := by
  rw [intercalate_cons_cons, intercalate_cons_cons, intercalate_singleton_list]
  simp [coreStr]

theorem mem_coreStr {v : Version} {c : Char} (hc : c ∈ coreStr v) :
    isDigitChB c = true ∨ c = '.' := by
  rw [coreStr] at hc
  rcases List.mem_append.mp hc with h1 | h2
  · rcases List.mem_append.mp h1 with h3 | h4
    · exact Or.inl (printNat_mem_digit h3)
    · rcases List.mem_cons.mp h4 with rfl | h5
      · exact Or.inr rfl
      · exact Or.inl (printNat_mem_digit h5)
  · rcases List.mem_cons.mp h2 with rfl | h6
    · exact Or.inr rfl
    · exact Or.inl (printNat_mem_digit h6)

theorem dot_not_mem_printNat (n : Nat) : '.' ∉ printNat n :=
  fun hc => absurd (printNat_mem_digit hc) (by decide)

theorem dash_not_mem_coreStr (v : Version) : '-' ∉ coreStr v := by
  intro hc
  rcases mem_coreStr hc with h | h
  · exact absurd h (by decide)
  · exact absurd h (by decide)

theorem plus_not_mem_coreStr (v : Version) : '+' ∉ coreStr v := by
  intro hc
  rcases mem_coreStr hc with h | h
  · exact absurd h (by decide)
  · exact absurd h (by decide)

theorem plus_not_mem_printIdents {ids : List Ident}
    (hw : ∀ i ∈ ids, wfIdentB i = true) : '+' ∉ printIdents ids := by
  intro hc
  rcases mem_printIdents ids hw '+' hc with h | h
  · exact absurd h (by decide)
  · exact absurd h (by decide)

theorem coreStr_splitOn (v : Version) :
    (coreStr v).splitOn '.' =
      [printNat v.major, printNat v.minor, printNat v.patch] := by
  rw [coreStr_eq_intercalate]
  refine List.splitOn_intercalate _ '.' ?_ (by simp)
  intro l hl
  rcases List.mem_cons.mp hl with rfl | hl2
  · exact dot_not_mem_printNat _
  rcases List.mem_cons.mp hl2 with rfl | hl3
  · exact dot_not_mem_printNat _
  rcases List.mem_cons.mp hl3 with rfl | hl4
  · exact dot_not_mem_printNat _
  · exact absurd hl4 (List.not_mem_nil l)

theorem parseIdents_printIdents (ids : List Ident) (hne : ids ≠ [])
    (hw : ∀ i ∈ ids, wfIdentB i = true) :
    parseIdents (printIdents ids) = some ids := by
  rw [parseIdents, printIdents]
  rw [List.splitOn_intercalate _ '.' ?_ ?_]
  · exact mapM_parseIdent_print ids hw
  · intro l hl
    rw [List.mem_map] at hl
    obtain ⟨i, hi, rfl⟩ := hl
    intro hdot
    exact absurd (printIdent_chars (hw i hi) '.' hdot) (by decide)
  · intro hmap
    exact hne (List.map_eq_nil_iff.mp hmap)

/-- `FromStr` is a left inverse of `Display` on well-formed versions. -/
theorem parseVersion_printVersion (v : Version) (hw : wfVersionB v = true) :
    parseVersion (printVersion v) = some v := by
  obtain ⟨M, m, p, pre, build⟩ := v
  rw [wfVersionB, Bool.and_eq_true] at hw
  obtain ⟨hwp, hwb⟩ := hw
  rw [List.all_eq_true] at hwp hwb
  by_cases hpre : pre = [] <;> by_cases hbuild : build = []
  · subst hpre; subst hbuild
    have hs : printVersion ⟨M, m, p, [], []⟩ = coreStr ⟨M, m, p, [], []⟩ := by
      simp [printVersion, coreStr]
    rw [hs]
    simp only [parseVersion,
      splitAtFirst_of_not_mem (plus_not_mem_coreStr ⟨M, m, p, [], []⟩),
      splitAtFirst_of_not_mem (dash_not_mem_coreStr ⟨M, m, p, [], []⟩),
      coreStr_splitOn, parseNat_printNat]
  · subst hpre
    have hs : printVersion ⟨M, m, p, [], build⟩ =
        coreStr ⟨M, m, p, [], build⟩ ++ '+' :: printIdents build := by
      simp [printVersion, coreStr, hbuild]
    rw [hs]
    simp only [parseVersion,
      splitAtFirst_append (printIdents build)
        (plus_not_mem_coreStr ⟨M, m, p, [], build⟩),
      splitAtFirst_of_not_mem (dash_not_mem_coreStr ⟨M, m, p, [], build⟩),
      coreStr_splitOn, parseNat_printNat,
      if_neg (printIdents_ne_nil hbuild hwb),
      parseIdents_printIdents build hbuild hwb]
  · subst hbuild
    have hs : printVersion ⟨M, m, p, pre, []⟩ =
        coreStr ⟨M, m, p, pre, []⟩ ++ '-' :: printIdents pre := by
      simp [printVersion, coreStr, hpre]
    have hplus : '+' ∉ coreStr ⟨M, m, p, pre, []⟩ ++ '-' :: printIdents pre := by
      intro hc
      rcases List.mem_append.mp hc with h1 | h2
      · exact plus_not_mem_coreStr _ h1
      · rcases List.mem_cons.mp h2 with h3 | h4
        · exact absurd h3 (by decide)
        · exact plus_not_mem_printIdents hwp h4
    rw [hs]
    simp only [parseVersion,
      splitAtFirst_of_not_mem hplus,
      splitAtFirst_append (printIdents pre)
        (dash_not_mem_coreStr ⟨M, m, p, pre, []⟩),
      coreStr_splitOn, parseNat_printNat,
      if_neg (printIdents_ne_nil hpre hwp),
      parseIdents_printIdents pre hpre hwp]
  · have hs : printVersion ⟨M, m, p, pre, build⟩ =
        (coreStr ⟨M, m, p, pre, build⟩ ++ '-' :: printIdents pre)
          ++ '+' :: printIdents build := by
      simp [printVersion, coreStr, hpre, hbuild]
    have hplus : '+' ∉ coreStr ⟨M, m, p, pre, build⟩ ++ '-' :: printIdents pre := by
      intro hc
      rcases List.mem_append.mp hc with h1 | h2
      · exact plus_not_mem_coreStr _ h1
      · rcases List.mem_cons.mp h2 with h3 | h4
        · exact absurd h3 (by decide)
        · exact plus_not_mem_printIdents hwp h4
    rw [hs]
    simp only [parseVersion,
      splitAtFirst_append (printIdents build) hplus,
      splitAtFirst_append (printIdents pre)
        (dash_not_mem_coreStr ⟨M, m, p, pre, build⟩),
      coreStr_splitOn, parseNat_printNat,
      if_neg (printIdents_ne_nil hpre hwp),
      if_neg (printIdents_ne_nil hbuild hwb),
      parseIdents_printIdents pre hpre hwp,
      parseIdents_printIdents build hbuild hwb]

theorem hexCharVal_hexDigitCh (d : Nat) (hd : d < 16) :
    hexCharVal (hexDigitCh d) = some d := by
  interval_cases d <;> decide

theorem hexPairs_encode (bs : List Nat) (hb : ∀ b ∈ bs, b < 256) :
    hexPairs (hex_encode bs) = some bs := by
  induction bs with
  | nil => rfl
  | cons b bs ih =>
    have hb2 : b < 256 := hb b (by simp)
    have hsh : hex_encode (b :: bs) =
        hexDigitCh (b / 16) :: hexDigitCh (b % 16) :: hex_encode bs := by
      simp [hex_encode]
    rw [hsh, hexPairs,
      hexCharVal_hexDigitCh (b / 16) (by omega),
      hexCharVal_hexDigitCh (b % 16) (by omega),
      ih (fun x hx => hb x (by simp [hx]))]
    simp [Nat.div_add_mod]

theorem hex_decode_0x (s : Str) : hex_decode ('0' :: 'x' :: s) = hexPairs s := rfl

theorem hex_decode_encode_prefixed (bs : List Nat) (hb : ∀ b ∈ bs, b < 256) :
    hex_decode (hex_encode_prefixed bs) = some bs := by
  rw [hex_encode_prefixed, hex_decode_0x]
  exact hexPairs_encode bs hb

theorem deserializeBuild_serializeBuild (b : BuildInfo)
    (hv : wfVersionB b.version = true) (hb : ∀ x ∈ b.sha256, x < 256) :
    deserializeBuild (serializeBuild b) = some b := by
  rw [serializeBuild, deserializeBuild, if_pos ⟨rfl, rfl⟩,
    parseVersion_printVersion b.version hv, hex_decode_encode_prefixed b.sha256 hb]

theorem mapM_deserializeBuild (builds : List BuildInfo)
    (hw : ∀ b ∈ builds, wfVersionB b.version = true ∧ ∀ x ∈ b.sha256, x < 256) :
    (builds.map serializeBuild).mapM deserializeBuild = some builds := by
  induction builds with
  | nil => rfl
  | cons b bs ih =>
    rw [List.map_cons, List.mapM_cons,
      deserializeBuild_serializeBuild b (hw b (by simp)).1 (hw b (by simp)).2,
      ih (fun x hx => hw x (by simp [hx]))]
    rfl

theorem mapM_deserializeEntry (entries : List (Version × Str))
    (hw : ∀ e ∈ entries, wfVersionB e.1 = true) :
    (entries.map (fun p => (printVersion p.1, Json.str p.2))).mapM
      deserializeEntry = some entries := by
  induction entries with
  | nil => rfl
  | cons e es ih =>
    rw [List.map_cons, List.mapM_cons, deserializeEntry,
      parseVersion_printVersion e.1 (hw e (by simp)),
      ih (fun x hx => hw x (by simp [hx]))]
    rfl

/-- C6: serializing a catalog to JSON and parsing it back yields the
original catalog; in particular every checksum byte vector survives the
hex encode (0x-prefixed) followed by hex decode. The hypotheses state the
invariants the Rust types enforce: checksum entries are bytes (`Vec<u8>`)
and version values are well-formed `semver` data. -/
theorem c6_releases_roundtrip (r : Releases)
    (hb : ∀ b ∈ r.builds, wfVersionB b.version = true ∧ ∀ x ∈ b.sha256, x < 256)
    (hr : ∀ e ∈ r.releases, wfVersionB e.1 = true) :
    deserializeReleases (serializeReleases r) = some r := by
  rw [serializeReleases, deserializeReleases, if_pos ⟨rfl, rfl⟩,
    mapM_deserializeBuild r.builds hb, mapM_deserializeEntry r.releases hr]

/-- Witness for C6: a one-build, one-release catalog with checksum bytes
`0xcc 0x5c`. -/
theorem c6_releases_roundtrip_witness :
    (∀ b ∈ ([⟨⟨1, 3, 17, [], []⟩, [204, 92]⟩] : List BuildInfo),
        wfVersionB b.version = true ∧ ∀ x ∈ b.sha256, x < 256) ∧
    (∀ e ∈ ([(⟨1, 3, 17, [], []⟩, "zksolc-linux-amd64-v1.3.17".data)] :
        List (Version × Str)), wfVersionB e.1 = true) ∧
    deserializeReleases (serializeReleases
      ⟨[⟨⟨1, 3, 17, [], []⟩, [204, 92]⟩],
       [(⟨1, 3, 17, [], []⟩, "zksolc-linux-amd64-v1.3.17".data)]⟩) =
      some ⟨[⟨⟨1, 3, 17, [], []⟩, [204, 92]⟩],
       [(⟨1, 3, 17, [], []⟩, "zksolc-linux-amd64-v1.3.17".data)]⟩ :=
  ⟨by decide, by decide, c6_releases_roundtrip _ (by decide) (by decide)⟩

/-- Executable sanity check of the round trip on a catalog whose version
carries pre-release and build identifiers. -/
example :
    deserializeReleases (serializeReleases
      ⟨[⟨⟨1, 40, 0, [.alpha "alpha".data, .num 2], [.num 7]⟩, [0, 255, 16]⟩],
       [(⟨1, 40, 0, [.alpha "alpha".data, .num 2], [.num 7]⟩, "art".data)]⟩) =
      some
      ⟨[⟨⟨1, 40, 0, [.alpha "alpha".data, .num 2], [.num 7]⟩, [0, 255, 16]⟩],
       [(⟨1, 40, 0, [.alpha "alpha".data, .num 2], [.num 7]⟩, "art".data)]⟩ := by
  decide

/-- An HTTP response: status code and body bytes. -/
structure HttpResponse where
  status : Nat
  body : List Nat
deriving DecidableEq, Repr

/-- `StatusCode::is_success`: any 2xx status. -/
def isSuccess (status : Nat) : Bool := 200 ≤ status && status < 300

/-- The environment one `install` invocation runs against: what the
external collaborators (filesystem, catalog endpoint, download endpoint,
lock syscalls) return to it. -/
structure World where
  platform : Platform
  setupDataDirOk : Bool
  fetch : Except SvmError Releases
  send : Except SvmError HttpResponse
  lockOpenOk : Bool
  lockExclusiveOk : Bool
  setupVersionOk : Bool
  writeOk : Bool

/-- The observable filesystem and network events of one install attempt,
in program order. -/
inductive Event where
  | setupDataDir
  | sendRequest (url : Str)
  | lockFileCreate (v : Version)
  | lockAcquired (v : Version)
  | setupVersionDir (v : Version)
  | writeBinary (v : Version) (bytes : List Nat)
  | lockFileRemove (v : Version)
deriving DecidableEq, Repr

/-- The result of an install attempt: the installed path, an error value,
or a Rust `panic!` unwind. -/
inductive InstallOutcome where
  | ok (path : Str)
  | err (e : SvmError)
  | panicked (msg : Str)
deriving DecidableEq, Repr

/-- Modelled from the spec: `version_binary` (declared outside the given
sources) produces the version-keyed path of the installed binary inside
the data directory. -/
def version_binary (v : Version) : Str :=
  "<data-dir>/".data ++ printVersion v ++ "/zksolc-".data ++ printVersion v

/-- The `panic!` message of `install` when the catalog has no checksum
entry for the version (`{:?}` of the version string adds quotes). -/
def checksumNotAvailableMsg (v : Version) : Str :=
  "checksum not available: ".data ++ '"' :: printVersion v ++ ['"']

/-- `do_install`: create the version directory, then create the binary at
its version-keyed path with mode 0o755 and write all bytes. The
Windows-only `.zip` branch is compiled out on the platforms modelled
here. -/
def do_install (w : World) (v : Version) (binbytes : List Nat)
    (ev : List Event) : InstallOutcome × List Event :=
  if !w.setupVersionOk then (.err .ioError, ev ++ [.setupVersionDir v])
  else
    let ev2 := ev ++ [Event.setupVersionDir v]
    if !w.writeOk then (.err .ioError, ev2)
    else (.ok (version_binary v), ev2 ++ [.writeBinary v binbytes])

/-- The `install` pipeline of `crates/zksvm-rs/src/install.rs`, step for
step: set up the data dir, fetch the catalog, look up the artifact name
(`UnknownVersionError` when absent), resolve the download URL, look up
the expected checksum (a missing entry panics), send the one download
request (a non-success status is reported with URL and status), verify
the checksum in memory, then create and exclusively lock the
version-scoped lock file, run `do_install`, and remove the lock file when
the `LockFile` guard drops — on every exit path after acquisition. When
`lock_exclusive` itself fails, the guard was never constructed and the
created lock file is not removed, exactly as in the source. -/
def runInstall (w : World) (version : Version) : InstallOutcome × List Event :=
  let ev0 := [Event.setupDataDir]
  if !w.setupDataDirOk then (.err .ioError, ev0)
  else
    match w.fetch with
    | .error e => (.err e, ev0)
    | .ok artifacts =>
      match artifacts.get_artifact version with
      | none => (.err .unknownVersion, ev0)
      | some artifact =>
        match artifact_url w.platform version artifact with
        | .error e => (.err e, ev0)
        | .ok download_url =>
          match artifacts.get_checksum version with
          | none => (.panicked (checksumNotAvailableMsg version), ev0)
          | some expected_checksum =>
            let ev1 := ev0 ++ [Event.sendRequest download_url]
            match w.send with
            | .error e => (.err e, ev1)
            | .ok res =>
              if !isSuccess res.status then
                (.err (.unsuccessfulResponse download_url res.status), ev1)
              else
                match ensure_checksum res.body version expected_checksum with
                | .error e => (.err e, ev1)
                | .ok _ =>
                  if !w.lockOpenOk then (.err .ioError, ev1)
                  else
                    let ev2 := ev1 ++ [Event.lockFileCreate version]
                    if !w.lockExclusiveOk then (.err .ioError, ev2)
                    else
                      let ev3 := ev2 ++ [Event.lockAcquired version]
                      let out := do_install w version res.body ev3
                      (out.1, out.2 ++ [Event.lockFileRemove version])

/-- Whether the version's lock file exists on disk after the events. -/
def lockFilePresent (v : Version) (evs : List Event) : Bool :=
  evs.foldl
    (fun st e =>
      match e with
      | .lockFileCreate v2 => if v2 = v then true else st
      | .lockFileRemove v2 => if v2 = v then false else st
      | _ => st)
    false

/-- The number of download requests in a trace. -/
def countRequests (evs : List Event) : Nat :=
  evs.countP (fun e => match e with | .sendRequest _ => true | _ => false)

/-- Whether the trace writes payload bytes to any binary path. -/
def hasWrite (evs : List Event) : Bool :=
  evs.any (fun e => match e with | .writeBinary _ _ => true | _ => false)

/-- Whether the trace creates any lock file. -/
def hasLockCreate (evs : List Event) : Bool :=
  evs.any (fun e => match e with | .lockFileCreate _ => true | _ => false)

/-- A catalog with an artifact name for 1.3.17 but no checksum entry. -/
def CAT_NO_CHECKSUM : Releases :=
  ⟨[], [(⟨1, 3, 17, [], []⟩, "zksolc-linux-amd64-v1.3.17".data)]⟩

/-- A catalog for 1.3.17 whose checksum is the digest of the empty body. -/
def CAT_OK : Releases :=
  ⟨[⟨⟨1, 3, 17, [], []⟩, DIGEST_EMPTY⟩],
   [(⟨1, 3, 17, [], []⟩, "zksolc-linux-amd64-v1.3.17".data)]⟩

/-- A catalog for 1.3.17 whose checksum entry does not match the empty
body. -/
def CAT_BAD : Releases :=
  ⟨[⟨⟨1, 3, 17, [], []⟩, DIGEST_EMPTY_FLIP⟩],
   [(⟨1, 3, 17, [], []⟩, "zksolc-linux-amd64-v1.3.17".data)]⟩

/-- A linux-amd64 environment where filesystem and lock calls succeed,
with the given catalog and download response. -/
def okWorld (cat : Releases) (resp : Except SvmError HttpResponse) : World :=
  ⟨.linuxAmd64, true, .ok cat, resp, true, true, true, true⟩

/-- C1 (amended): when the fetched catalog has no artifact-name entry for
the version, `install` returns `UnknownVersionError`; but when the
artifact name is present and only the checksum (builds) entry is missing,
`install` does not return an error value at all — it panics with
"checksum not available". -/
theorem c1_missing_entries (w : World) (v : Version) (arts : Releases)
    (hsetup : w.setupDataDirOk = true) (hfetch : w.fetch = .ok arts) :
    (arts.get_artifact v = none → (runInstall w v).1 = .err .unknownVersion) ∧
    (∀ a url, arts.get_artifact v = some a →
      artifact_url w.platform v a = .ok url →
      arts.get_checksum v = none →
      (runInstall w v).1 = .panicked (checksumNotAvailableMsg v)) := by
  constructor
  · intro hart
    simp [runInstall, hsetup, hfetch, hart]
  · intro a url hart hurl hchk
    simp [runInstall, hsetup, hfetch, hart, hurl, hchk]

/-- C1 counterexample: a version with an artifact name but no checksum
entry makes `install` panic — the `UnknownVersionError` error value is
not returned to the caller. -/
theorem c1_counterexample :
    (runInstall (okWorld CAT_NO_CHECKSUM (.error .transportError))
        ⟨1, 3, 17, [], []⟩).1 =
      .panicked (checksumNotAvailableMsg ⟨1, 3, 17, [], []⟩) ∧
    (runInstall (okWorld CAT_NO_CHECKSUM (.error .transportError))
        ⟨1, 3, 17, [], []⟩).1 ≠ .err .unknownVersion := by
  constructor
  · decide
  · decide

/-- Witness for C1: version 9.9.9 is absent from the catalog entirely
(`UnknownVersionError`); version 1.3.17 has an artifact name but no
checksum (panic). -/
theorem c1_missing_entries_witness :
    (runInstall (okWorld CAT_NO_CHECKSUM (.error .transportError))
        ⟨9, 9, 9, [], []⟩).1 = .err .unknownVersion ∧
    (runInstall (okWorld CAT_NO_CHECKSUM (.error .transportError))
        ⟨1, 3, 17, [], []⟩).1 =
      .panicked (checksumNotAvailableMsg ⟨1, 3, 17, [], []⟩) :=
  ⟨(c1_missing_entries _ ⟨9, 9, 9, [], []⟩ _ rfl rfl).1 (by decide),
   (c1_missing_entries _ ⟨1, 3, 17, [], []⟩ _ rfl rfl).2
     "zksolc-linux-amd64-v1.3.17".data
     (LINUX_AMD64_URL_PREFIX ++ '/' :: "zksolc-linux-amd64-v1.3.17".data)
     (by decide) rfl (by decide)⟩

/-- C2: a checksum mismatch makes `install` return
`ChecksumMismatchError`, and the attempt neither writes any payload byte
nor ever creates the version-scoped lock file: verification completes in
memory before the lock is acquired and before any write of the binary. -/
theorem c2_mismatch_no_materialization (w : World) (v : Version)
    (arts : Releases) (a url : Str) (res : HttpResponse) (exp : List Nat)
    (hsetup : w.setupDataDirOk = true)
    (hfetch : w.fetch = .ok arts)
    (hart : arts.get_artifact v = some a)
    (hurl : artifact_url w.platform v a = .ok url)
    (hchk : arts.get_checksum v = some exp)
    (hsend : w.send = .ok res)
    (hstatus : isSuccess res.status = true)
    (hmis : sha256 res.body ≠ exp) :
    (runInstall w v).1 = .err (.checksumMismatch (printVersion v)
        (hex_encode exp) (hex_encode (sha256 res.body))) ∧
    hasWrite (runInstall w v).2 = false ∧
    hasLockCreate (runInstall w v).2 = false := by
  have hens : ensure_checksum res.body v exp = .error
      (.checksumMismatch (printVersion v) (hex_encode exp)
        (hex_encode (sha256 res.body))) := by
    simp [ensure_checksum, hmis]
  refine ⟨?_, ?_, ?_⟩ <;>
    simp [runInstall, hsetup, hfetch, hart, hurl, hchk, hsend, hstatus, hens,
      hasWrite, hasLockCreate]

/-- Witness for C2: the empty body downloaded with status 200 against a
catalog expecting the bit-flipped digest. -/
theorem c2_mismatch_no_materialization_witness :
    (runInstall (okWorld CAT_BAD (.ok ⟨200, []⟩)) ⟨1, 3, 17, [], []⟩).1 =
      .err (.checksumMismatch (printVersion ⟨1, 3, 17, [], []⟩)
        (hex_encode DIGEST_EMPTY_FLIP) (hex_encode (sha256 []))) ∧
    hasWrite (runInstall (okWorld CAT_BAD (.ok ⟨200, []⟩))
      ⟨1, 3, 17, [], []⟩).2 = false ∧
    hasLockCreate (runInstall (okWorld CAT_BAD (.ok ⟨200, []⟩))
      ⟨1, 3, 17, [], []⟩).2 = false :=
  c2_mismatch_no_materialization
    (okWorld CAT_BAD (.ok ⟨200, []⟩)) ⟨1, 3, 17, [], []⟩ CAT_BAD
    "zksolc-linux-amd64-v1.3.17".data
    (LINUX_AMD64_URL_PREFIX ++ '/' :: "zksolc-linux-amd64-v1.3.17".data)
    ⟨200, []⟩ DIGEST_EMPTY_FLIP
    rfl rfl (by decide) rfl (by decide) rfl (by decide) (by decide)

theorem lockFilePresent_append_remove (v : Version) (evs : List Event) :
    lockFilePresent v (evs ++ [.lockFileRemove v]) = false := by
  rw [lockFilePresent, List.foldl_append]
  simp

theorem runInstall_trace_cases (w : World) (v : Version) :
    Event.lockAcquired v ∉ (runInstall w v).2 ∨
    ∃ evs, (runInstall w v).2 = evs ++ [Event.lockFileRemove v] := by
  simp only [runInstall, do_install]
  repeat' split
  all_goals
    first
      | (right; exact ⟨_, rfl⟩)
      | (left; intro hmem; simp at hmem)

/-- C7: every install attempt that acquires the version-scoped lock ends
with that version's lock file removed from the filesystem, whether
`do_install` succeeds or exits with an error. -/
theorem c7_lock_released (w : World) (v : Version)
    (hacq : Event.lockAcquired v ∈ (runInstall w v).2) :
    lockFilePresent v (runInstall w v).2 = false := by
  rcases runInstall_trace_cases w v with h | ⟨evs, h⟩
  · exact absurd hacq h
  · rw [h]
    exact lockFilePresent_append_remove v evs

/-- Witness for C7: a fully successful install acquires the lock and ends
with the lock file removed. -/
theorem c7_lock_released_witness :
    Event.lockAcquired ⟨1, 3, 17, [], []⟩ ∈
      (runInstall (okWorld CAT_OK (.ok ⟨200, []⟩)) ⟨1, 3, 17, [], []⟩).2 ∧
    lockFilePresent ⟨1, 3, 17, [], []⟩
      (runInstall (okWorld CAT_OK (.ok ⟨200, []⟩)) ⟨1, 3, 17, [], []⟩).2 =
      false :=
  ⟨by decide, c7_lock_released _ _ (by decide)⟩

/-- C8: at most one download request is ever issued — exactly one in any
run that processes a response — and whenever the response status is not a
success status, `install` returns `UnsuccessfulDownloadError` carrying
that URL and status, without writing any payload. -/
theorem c8_single_request_no_retry (w : World) (v : Version) :
    countRequests (runInstall w v).2 ≤ 1 ∧
    (∀ arts a url res exp,
      w.setupDataDirOk = true →
      w.fetch = .ok arts →
      arts.get_artifact v = some a →
      artifact_url w.platform v a = .ok url →
      arts.get_checksum v = some exp →
      w.send = .ok res →
      isSuccess res.status = false →
      (runInstall w v).1 = .err (.unsuccessfulResponse url res.status) ∧
      countRequests (runInstall w v).2 = 1 ∧
      hasWrite (runInstall w v).2 = false) := by
  constructor
  · simp only [runInstall, do_install]
    repeat' split
    all_goals simp [countRequests, List.countP_append, List.countP_cons]
  · intro arts a url res exp hsetup hfetch hart hurl hchk hsend hstatus
    refine ⟨?_, ?_, ?_⟩ <;>
      simp [runInstall, hsetup, hfetch, hart, hurl, hchk, hsend, hstatus,
        countRequests, hasWrite]

/-- Witness for C8: a 404 response for version 1.3.17. -/
theorem c8_single_request_no_retry_witness :
    countRequests (runInstall (okWorld CAT_OK (.ok ⟨404, []⟩))
      ⟨1, 3, 17, [], []⟩).2 ≤ 1 ∧
    (runInstall (okWorld CAT_OK (.ok ⟨404, []⟩)) ⟨1, 3, 17, [], []⟩).1 =
      .err (.unsuccessfulResponse
        (LINUX_AMD64_URL_PREFIX ++ '/' :: "zksolc-linux-amd64-v1.3.17".data)
        404) ∧
    countRequests (runInstall (okWorld CAT_OK (.ok ⟨404, []⟩))
      ⟨1, 3, 17, [], []⟩).2 = 1 ∧
    hasWrite (runInstall (okWorld CAT_OK (.ok ⟨404, []⟩))
      ⟨1, 3, 17, [], []⟩).2 = false :=
  ⟨(c8_single_request_no_retry (okWorld CAT_OK (.ok ⟨404, []⟩))
      ⟨1, 3, 17, [], []⟩).1,
   (c8_single_request_no_retry (okWorld CAT_OK (.ok ⟨404, []⟩))
      ⟨1, 3, 17, [], []⟩).2 CAT_OK
     "zksolc-linux-amd64-v1.3.17".data
     (LINUX_AMD64_URL_PREFIX ++ '/' :: "zksolc-linux-amd64-v1.3.17".data)
     ⟨404, []⟩ DIGEST_EMPTY rfl rfl (by decide) rfl (by decide) rfl
     (by decide)⟩
